import Mathlib

/-!
The in-app-purchase plugin of the Tizen embedder.

A shallow embedding of `packages/in_app_purchase/tizen/src/in_app_purchase_tizen_plugin.cc`.

The file registers one method channel and answers every call on it from the
method name alone.  The Flutter embedder types the file uses
(`flutter::EncodableValue`, `flutter::MethodCall<T>`, `flutter::MethodResult<T>`,
`flutter::MethodChannel<T>`, `flutter::PluginRegistrar`,
`flutter::PluginRegistrarManager`) belong to the Flutter client wrapper, not to
this file; they are embedded here by the part of their interface the file
touches, with the C++ object state passed explicitly.

A `std::string` is embedded as a Lean `String`; `operator==` between a
`std::string` and a string literal is whole-string equality.
-/

namespace InAppPurchaseTizen

/-! Flutter client wrapper types -/

/-- The alternatives of `flutter::EncodableValue` (a `std::variant`): the first
alternative, `std::monostate`, is the value of the default constructor
`flutter::EncodableValue()`.  Floating-point alternatives are carried by their
bit patterns.  The plugin never looks inside a value. -/
inductive EncodableValue where
  | null : EncodableValue
  | bool (b : Bool) : EncodableValue
  | int32 (i : Int) : EncodableValue
  | int64 (i : Int) : EncodableValue
  | double (bits : Nat) : EncodableValue
  | string (s : String) : EncodableValue
  | uint8List (l : List Nat) : EncodableValue
  | int32List (l : List Int) : EncodableValue
  | int64List (l : List Int) : EncodableValue
  | float64List (l : List Nat) : EncodableValue
  | list (l : List EncodableValue) : EncodableValue
  | map (m : List (EncodableValue × EncodableValue)) : EncodableValue
  | float32List (l : List Nat) : EncodableValue

/-- The default constructor `flutter::EncodableValue()`. -/
instance : Inhabited EncodableValue := ⟨EncodableValue.null⟩

/-- A call of `flutter::MethodCall<T>`: the method name and the arguments
(a `std::unique_ptr<T>`, possibly null). -/
structure MethodCall (T : Type) where
  method_name : String
  arguments : Option T

/-- One response delivered on a `flutter::MethodResult<T>`. -/
inductive Response (T : Type) where
  | Success (value : T) : Response T
  | Error (error_code : String) (error_message : String) (error_details : T) : Response T
  | NotImplemented : Response T

/-- A `flutter::MethodResult<T>` object, observed through the responses that
have been delivered on it so far, oldest first. -/
structure MethodResult (T : Type) where
  responses : List (Response T)

namespace MethodResult

/-- A result object on which nothing has been delivered yet. -/
def fresh {T : Type} : MethodResult T := ⟨[]⟩

/-- The member `MethodResult<T>::Success(const T&)`. -/
def Success {T : Type} (self : MethodResult T) (value : T) : MethodResult T :=
  ⟨self.responses ++ [Response.Success value]⟩

/-- The member `MethodResult<T>::Error(code, message, details)`. -/
def Error {T : Type} (self : MethodResult T) (error_code error_message : String)
    (error_details : T) : MethodResult T :=
  ⟨self.responses ++ [Response.Error error_code error_message error_details]⟩

/-- The member `MethodResult<T>::NotImplemented()`. -/
def NotImplemented {T : Type} (self : MethodResult T) : MethodResult T :=
  ⟨self.responses ++ [Response.NotImplemented]⟩

end MethodResult

/-- A `flutter::MethodCallHandler<T>`: it receives the call and the result
object and leaves the result object in its final state. -/
abbrev MethodCallHandler (T : Type) := MethodCall T → MethodResult T → MethodResult T

/-- The `flutter::BinaryMessenger` of a registrar, observed through the
handlers installed on it, most recent first, each under its channel name. -/
structure BinaryMessenger where
  handlers : List (String × MethodCallHandler EncodableValue)

/-- The handler that answers calls on the channel `name`: the most recently
installed one. -/
def BinaryMessenger.handlerFor (self : BinaryMessenger) (name : String) :
    Option (MethodCallHandler EncodableValue) :=
  (self.handlers.find? (fun e => e.1 == name)).map Prod.snd

/-- The method codecs of the client wrapper. -/
inductive MethodCodec where
  | StandardMethodCodec : MethodCodec
  | JsonMethodCodec : MethodCodec

/-- The singleton `flutter::StandardMethodCodec::GetInstance()`. -/
def StandardMethodCodec.GetInstance : MethodCodec := MethodCodec.StandardMethodCodec

/-- A `flutter::MethodChannel<EncodableValue>`: messenger, channel name, codec. -/
structure MethodChannel where
  messenger : BinaryMessenger
  name : String
  codec : MethodCodec

/-- The member `MethodChannel::SetMethodCallHandler`: installs `handler` on the
channel's messenger under the channel's name; the messenger afterwards. -/
def MethodChannel.SetMethodCallHandler (self : MethodChannel)
    (handler : MethodCallHandler EncodableValue) : BinaryMessenger :=
  ⟨(self.name, handler) :: self.messenger.handlers⟩

/-! The plugin -/

/-- The constant `kInvalidArgument` (declared, never used). -/
def kInvalidArgument : String := "Invalid argument"

/-- The class `InAppPurchaseTizenPlugin`: it declares no data member. -/
structure InAppPurchaseTizenPlugin where
  mk ::
  deriving DecidableEq, Repr

/-- The base class `flutter::Plugin`, by the plugin classes a registrar can own:
the one of this file, or one registered by another package. -/
inductive Plugin where
  | inAppPurchaseTizen (p : InAppPurchaseTizenPlugin) : Plugin
  | other (tag : Nat) : Plugin
  deriving DecidableEq, Repr

/-- A `flutter::PluginRegistrar`: its messenger and the plugins it owns, in the
order they were added. -/
structure PluginRegistrar where
  messenger : BinaryMessenger
  plugins : List Plugin

/-- The member `PluginRegistrar::AddPlugin`. -/
def PluginRegistrar.AddPlugin (self : PluginRegistrar) (plugin : Plugin) : PluginRegistrar :=
  { self with plugins := self.plugins ++ [plugin] }

/-- The member `InAppPurchaseTizenPlugin::HandleMethodCall`.  It is a non-const
member taking the result object by value: the plugin object and the result
object are returned in the state the body leaves them in. -/
def InAppPurchaseTizenPlugin.HandleMethodCall (self : InAppPurchaseTizenPlugin)
    (method_call : MethodCall EncodableValue) (result : MethodResult EncodableValue) :
    InAppPurchaseTizenPlugin × MethodResult EncodableValue :=
  let method_name := method_call.method_name
  if method_name == "getProductList" ||
      method_name == "getPurchaseList" ||
      method_name == "buyItem" ||
      method_name == "verifyInvoice" ||
      method_name == "isAvailable" ||
      method_name == "GetCustomId" ||
      method_name == "GetCountryCode" then
    (self, result.Success (default : EncodableValue))
  else
    (self, result.NotImplemented)

/-- The static member `InAppPurchaseTizenPlugin::RegisterWithRegistrar`; the
registrar afterwards.  The lambda captures the plugin and forwards the call
and the result object to `HandleMethodCall`. -/
def InAppPurchaseTizenPlugin.RegisterWithRegistrar (plugin_registrar : PluginRegistrar) :
    PluginRegistrar :=
  let channel : MethodChannel :=
    ⟨plugin_registrar.messenger, "plugins.flutter.tizen.io/in_app_purchase",
      StandardMethodCodec.GetInstance⟩
  let plugin := InAppPurchaseTizenPlugin.mk
  let messenger := channel.SetMethodCallHandler
    (fun call result => (plugin.HandleMethodCall call result).2)
  PluginRegistrar.AddPlugin { plugin_registrar with messenger := messenger }
    (Plugin.inAppPurchaseTizen plugin)

/-- A `FlutterDesktopPluginRegistrarRef`: the handle of an engine registrar. -/
abbrev FlutterDesktopPluginRegistrarRef := Nat

/-- The singleton `flutter::PluginRegistrarManager`: the registrar wrapper of
every handle. -/
structure PluginRegistrarManager where
  registrars : FlutterDesktopPluginRegistrarRef → PluginRegistrar

/-- The member `PluginRegistrarManager::GetRegistrar`. -/
def PluginRegistrarManager.GetRegistrar (self : PluginRegistrarManager)
    (registrar : FlutterDesktopPluginRegistrarRef) : PluginRegistrar :=
  self.registrars registrar

/-- The exported function `InAppPurchaseTizenPluginRegisterWithRegistrar`; the
registrar manager afterwards. -/
def InAppPurchaseTizenPluginRegisterWithRegistrar (manager : PluginRegistrarManager)
    (registrar : FlutterDesktopPluginRegistrarRef) : PluginRegistrarManager :=
  ⟨fun r =>
    if r = registrar then
      InAppPurchaseTizenPlugin.RegisterWithRegistrar (manager.GetRegistrar registrar)
    else manager.registrars r⟩

/-! Vocabulary of the statements -/

/-- The seven string literals compared in `HandleMethodCall`, in source order. -/
def recognizedNames : List String :=
  ["getProductList", "getPurchaseList", "buyItem", "verifyInvoice", "isAvailable",
    "GetCustomId", "GetCountryCode"]

/-- The response a fresh plugin gives to `method_call` on a fresh result
object: everything delivered on the result object. -/
def respond (method_call : MethodCall EncodableValue) : List (Response EncodableValue) :=
  (InAppPurchaseTizenPlugin.mk.HandleMethodCall method_call MethodResult.fresh).2.responses

/-! The handler in the program state

`HandleMethodCall` is a non-const member of a class in a file that has a
file-scope variable: a body of its signature can keep state between calls in
the plugin object or in that variable.  Here the body is embedded once more
with that state passed explicitly, so that what it reads and what it leaves
behind are visible. -/

namespace Program

/-- The mutable state a call of the handler can reach besides its own result
object: the file-scope variable `kInvalidArgument` (line 22: a `const char *`,
a pointer that can be reassigned) and the plugin object the lambda captured. -/
structure State where
  kInvalidArgument : String
  plugin : InAppPurchaseTizenPlugin
  deriving DecidableEq, Repr

/-- The state after static initialisation and registration: the variable holds
its initialiser and the plugin is the object `RegisterWithRegistrar` made. -/
def State.init : State := ⟨InAppPurchaseTizen.kInvalidArgument, InAppPurchaseTizenPlugin.mk⟩

/-- The member `InAppPurchaseTizenPlugin::HandleMethodCall` (lines 56-73) run in
a program state: the state and the result object as the body leaves them.  The
body assigns neither the variable nor the object, and reads only
`method_call.method_name()`. -/
def HandleMethodCall (state : State) (method_call : MethodCall EncodableValue)
    (result : MethodResult EncodableValue) : State × MethodResult EncodableValue :=
  let method_name := method_call.method_name
  if method_name == "getProductList" ||
      method_name == "getPurchaseList" ||
      method_name == "buyItem" ||
      method_name == "verifyInvoice" ||
      method_name == "isAvailable" ||
      method_name == "GetCustomId" ||
      method_name == "GetCountryCode" then
    (state, result.Success (default : EncodableValue))
  else
    (state, result.NotImplemented)

/-- The response to `method_call` in isolation: the only call made, from the
initial state, on a result object of its own. -/
def respondAlone (method_call : MethodCall EncodableValue) : List (Response EncodableValue) :=
  (HandleMethodCall State.init method_call MethodResult.fresh).2.responses

/-- Calls dispatched one after the other to the same plugin object, each with a
result object of its own and each starting in the state the call before it
left: the state at the end and the responses delivered on each result object,
in call order. -/
def dispatchAll (state : State) :
    List (MethodCall EncodableValue) → State × List (List (Response EncodableValue))
  | [] => (state, [])
  | call :: rest =>
    let step := HandleMethodCall state call MethodResult.fresh
    let tail := dispatchAll step.1 rest
    (tail.1, step.2.responses :: tail.2)

end Program

/-- ASCII case folding of a name, character by character. -/
def foldCase (s : String) : List Char := s.data.map Char.toLower

/-! Dispatch lemmas -/

theorem mem_recognizedNames (name : String) :
    name ∈ recognizedNames ↔
      (name == "getProductList" || name == "getPurchaseList" || name == "buyItem" ||
        name == "verifyInvoice" || name == "isAvailable" || name == "GetCustomId" ||
        name == "GetCountryCode") = true := by
  simp [recognizedNames, or_assoc]

theorem HandleMethodCall_recognized (self : InAppPurchaseTizenPlugin)
    (method_call : MethodCall EncodableValue) (result : MethodResult EncodableValue)
    (h : method_call.method_name ∈ recognizedNames) :
    self.HandleMethodCall method_call result = (self, result.Success EncodableValue.null) := by
  rw [mem_recognizedNames] at h
  unfold InAppPurchaseTizenPlugin.HandleMethodCall
  simp only [h, if_true]
  rfl

theorem HandleMethodCall_unrecognized (self : InAppPurchaseTizenPlugin)
    (method_call : MethodCall EncodableValue) (result : MethodResult EncodableValue)
    (h : method_call.method_name ∉ recognizedNames) :
    self.HandleMethodCall method_call result = (self, result.NotImplemented) := by
  rw [mem_recognizedNames, Bool.not_eq_true] at h
  unfold InAppPurchaseTizenPlugin.HandleMethodCall
  simp only [h]
  rfl

theorem respond_recognized (method_call : MethodCall EncodableValue)
    (h : method_call.method_name ∈ recognizedNames) :
    respond method_call = [Response.Success EncodableValue.null] := by
  unfold respond
  rw [HandleMethodCall_recognized _ _ _ h]
  rfl

theorem respond_unrecognized (method_call : MethodCall EncodableValue)
    (h : method_call.method_name ∉ recognizedNames) :
    respond method_call = [Response.NotImplemented] := by
  unfold respond
  rw [HandleMethodCall_unrecognized _ _ _ h]
  rfl

theorem HandleMethodCall_responses (self : InAppPurchaseTizenPlugin)
    (method_call : MethodCall EncodableValue) (result : MethodResult EncodableValue) :
    (self.HandleMethodCall method_call result).2.responses =
      result.responses ++ respond method_call := by
  by_cases h : method_call.method_name ∈ recognizedNames
  · rw [HandleMethodCall_recognized _ _ _ h, respond_recognized _ h]
    rfl
  · rw [HandleMethodCall_unrecognized _ _ _ h, respond_unrecognized _ h]
    rfl

theorem recognizedNames_prefix_free :
    ∀ n ∈ recognizedNames, ∀ m ∈ recognizedNames, n.data <+: m.data → n = m := by
  decide

theorem recognizedNames_suffix_free :
    ∀ n ∈ recognizedNames, ∀ m ∈ recognizedNames, n.data <:+ m.data → n = m := by
  decide

theorem recognizedNames_foldCase_injective :
    ∀ n ∈ recognizedNames, ∀ m ∈ recognizedNames, foldCase n = foldCase m → n = m := by
  decide

theorem Program.HandleMethodCall_eq (state : Program.State)
    (method_call : MethodCall EncodableValue) (result : MethodResult EncodableValue) :
    Program.HandleMethodCall state method_call result =
      (state, (state.plugin.HandleMethodCall method_call result).2) := by
  by_cases h : method_call.method_name ∈ recognizedNames
  · rw [HandleMethodCall_recognized _ _ _ h]
    rw [mem_recognizedNames] at h
    unfold Program.HandleMethodCall
    simp only [h, if_true]
    rfl
  · rw [HandleMethodCall_unrecognized _ _ _ h]
    rw [mem_recognizedNames, Bool.not_eq_true] at h
    unfold Program.HandleMethodCall
    simp only [h]
    rfl

theorem Program.respondAlone_eq (method_call : MethodCall EncodableValue) :
    Program.respondAlone method_call = respond method_call := by
  unfold Program.respondAlone respond
  rw [Program.HandleMethodCall_eq]

theorem Program.dispatchAll_eq (state : Program.State)
    (calls : List (MethodCall EncodableValue)) :
    Program.dispatchAll state calls = (state, calls.map Program.respondAlone) := by
  induction calls generalizing state with
  | nil => rfl
  | cons call rest ih =>
    simp only [Program.dispatchAll, ih, Program.HandleMethodCall_eq, List.map_cons,
      Program.respondAlone]

/-! The method dispatcher -/

/-- C1: for each of the seven method names, whatever arguments the call
carries and whatever plugin and result object it is given, `HandleMethodCall`
delivers `Success` with the default-constructed (null) `EncodableValue` on the
result object, and nothing else. -/
theorem HandleMethodCall_known_success (self : InAppPurchaseTizenPlugin)
    (arguments : Option EncodableValue) (result : MethodResult EncodableValue) :
    (self.HandleMethodCall ⟨"getProductList", arguments⟩ result).2.responses =
        result.responses ++ [Response.Success EncodableValue.null] ∧
    (self.HandleMethodCall ⟨"getPurchaseList", arguments⟩ result).2.responses =
        result.responses ++ [Response.Success EncodableValue.null] ∧
    (self.HandleMethodCall ⟨"buyItem", arguments⟩ result).2.responses =
        result.responses ++ [Response.Success EncodableValue.null] ∧
    (self.HandleMethodCall ⟨"verifyInvoice", arguments⟩ result).2.responses =
        result.responses ++ [Response.Success EncodableValue.null] ∧
    (self.HandleMethodCall ⟨"isAvailable", arguments⟩ result).2.responses =
        result.responses ++ [Response.Success EncodableValue.null] ∧
    (self.HandleMethodCall ⟨"GetCustomId", arguments⟩ result).2.responses =
        result.responses ++ [Response.Success EncodableValue.null] ∧
    (self.HandleMethodCall ⟨"GetCountryCode", arguments⟩ result).2.responses =
        result.responses ++ [Response.Success EncodableValue.null] := by
  refine ⟨?_, ?_, ?_, ?_, ?_, ?_, ?_⟩ <;>
    · rw [HandleMethodCall_recognized _ _ _ (by simp [recognizedNames])]
      rfl

/-- C2: for a method name that is none of the seven recognized names,
`HandleMethodCall` delivers `NotImplemented` on the result object, and what it
delivers contains no `Success`. -/
theorem HandleMethodCall_unknown_not_implemented (self : InAppPurchaseTizenPlugin)
    (method_call : MethodCall EncodableValue) (result : MethodResult EncodableValue)
    (h : method_call.method_name ∉ recognizedNames) :
    (self.HandleMethodCall method_call result).2.responses =
        result.responses ++ [Response.NotImplemented] ∧
    respond method_call = [Response.NotImplemented] ∧
    ∀ value : EncodableValue, Response.Success value ∉ respond method_call := by
  refine ⟨?_, respond_unrecognized _ h, ?_⟩
  · rw [HandleMethodCall_unrecognized _ _ _ h]
    rfl
  · intro value
    rw [respond_unrecognized _ h]
    simp

/-- Witness of C2 at the empty method name, with a string argument. -/
theorem HandleMethodCall_unknown_not_implemented_witness :
    (InAppPurchaseTizenPlugin.mk.HandleMethodCall
        ⟨"", some (EncodableValue.string "sku")⟩ MethodResult.fresh).2.responses =
        MethodResult.fresh.responses ++ [Response.NotImplemented] ∧
    respond ⟨"", some (EncodableValue.string "sku")⟩ = [Response.NotImplemented] ∧
    ∀ value : EncodableValue,
      Response.Success value ∉ respond ⟨"", some (EncodableValue.string "sku")⟩ :=
  HandleMethodCall_unknown_not_implemented InAppPurchaseTizenPlugin.mk
    ⟨"", some (EncodableValue.string "sku")⟩ MethodResult.fresh (by decide)

/-- C3: two calls with the same method name get the same response from
`HandleMethodCall`, whatever their arguments: the same responses are delivered
on the result object and the plugin is left the same. -/
theorem HandleMethodCall_ignores_arguments (self : InAppPurchaseTizenPlugin)
    (call₁ call₂ : MethodCall EncodableValue) (result : MethodResult EncodableValue)
    (h : call₁.method_name = call₂.method_name) :
    self.HandleMethodCall call₁ result = self.HandleMethodCall call₂ result ∧
    respond call₁ = respond call₂ := by
  have key : ∀ r s, InAppPurchaseTizenPlugin.HandleMethodCall s call₁ r =
      InAppPurchaseTizenPlugin.HandleMethodCall s call₂ r := by
    intro r s
    unfold InAppPurchaseTizenPlugin.HandleMethodCall
    simp only [h]
  exact ⟨key _ _, by unfold respond; rw [key]⟩

/-- Witness of C3: `buyItem` without arguments and `buyItem` with a map of
arguments. -/
theorem HandleMethodCall_ignores_arguments_witness :
    InAppPurchaseTizenPlugin.mk.HandleMethodCall ⟨"buyItem", none⟩ MethodResult.fresh =
      InAppPurchaseTizenPlugin.mk.HandleMethodCall
        ⟨"buyItem", some (EncodableValue.map
          [(EncodableValue.string "sku", EncodableValue.int32 7)])⟩ MethodResult.fresh ∧
    respond ⟨"buyItem", none⟩ =
      respond ⟨"buyItem", some (EncodableValue.map
        [(EncodableValue.string "sku", EncodableValue.int32 7)])⟩ :=
  HandleMethodCall_ignores_arguments InAppPurchaseTizenPlugin.mk ⟨"buyItem", none⟩
    ⟨"buyItem", some (EncodableValue.map
      [(EncodableValue.string "sku", EncodableValue.int32 7)])⟩ MethodResult.fresh rfl

/-- C4: `HandleMethodCall` never delivers `Error`: on every call it delivers
one response, which is `Success` with the null value or `NotImplemented`, and
it is `NotImplemented` exactly when the method name is not recognized. -/
theorem HandleMethodCall_never_error (self : InAppPurchaseTizenPlugin)
    (method_call : MethodCall EncodableValue) (result : MethodResult EncodableValue) :
    ∃ response : Response EncodableValue,
      (self.HandleMethodCall method_call result).2.responses =
        result.responses ++ [response] ∧
      (response = Response.Success EncodableValue.null ∨
        response = Response.NotImplemented) ∧
      (∀ (error_code error_message : String) (error_details : EncodableValue),
        response ≠ Response.Error error_code error_message error_details) ∧
      (response = Response.NotImplemented ↔
        method_call.method_name ∉ recognizedNames) := by
  by_cases h : method_call.method_name ∈ recognizedNames
  · refine ⟨Response.Success EncodableValue.null, ?_, Or.inl rfl, ?_, ?_⟩
    · rw [HandleMethodCall_recognized _ _ _ h]
      rfl
    · intro _ _ _ hc
      cases hc
    · simp [h]
  · refine ⟨Response.NotImplemented, ?_, Or.inr rfl, ?_, ?_⟩
    · rw [HandleMethodCall_unrecognized _ _ _ h]
      rfl
    · intro _ _ _ hc
      cases hc
    · simp [h]

/-- C5: the method names answered with `Success` are exactly the seven
literals of the dispatch: the literals are pairwise distinct, a name is
answered with `Success` if and only if it is one of them, and the set of names
answered with `Success` has seven elements. -/
theorem HandleMethodCall_success_names :
    recognizedNames.Nodup ∧ recognizedNames.length = 7 ∧
    (∀ (self : InAppPurchaseTizenPlugin) (method_call : MethodCall EncodableValue)
        (result : MethodResult EncodableValue),
      (self.HandleMethodCall method_call result).2.responses =
          result.responses ++ [Response.Success EncodableValue.null] ↔
        (method_call.method_name = "getProductList" ∨
          method_call.method_name = "getPurchaseList" ∨
          method_call.method_name = "buyItem" ∨
          method_call.method_name = "verifyInvoice" ∨
          method_call.method_name = "isAvailable" ∨
          method_call.method_name = "GetCustomId" ∨
          method_call.method_name = "GetCountryCode")) ∧
    Set.ncard {name : String | ∃ (arguments : Option EncodableValue) (value : EncodableValue),
      Response.Success value ∈ respond ⟨name, arguments⟩} = 7 := by
  refine ⟨by decide, rfl, ?_, ?_⟩
  · intro self method_call result
    have hmem : method_call.method_name ∈ recognizedNames ↔
        (method_call.method_name = "getProductList" ∨
          method_call.method_name = "getPurchaseList" ∨
          method_call.method_name = "buyItem" ∨
          method_call.method_name = "verifyInvoice" ∨
          method_call.method_name = "isAvailable" ∨
          method_call.method_name = "GetCustomId" ∨
          method_call.method_name = "GetCountryCode") := by
      simp [recognizedNames]
    rw [← hmem]
    by_cases h : method_call.method_name ∈ recognizedNames
    · rw [HandleMethodCall_recognized _ _ _ h]
      simp [h, MethodResult.Success]
    · rw [HandleMethodCall_unrecognized _ _ _ h]
      simp [h, MethodResult.NotImplemented]
  · have hset : {name : String | ∃ (arguments : Option EncodableValue)
        (value : EncodableValue), Response.Success value ∈ respond ⟨name, arguments⟩} =
        (recognizedNames.toFinset : Set String) := by
      ext name
      simp only [Set.mem_setOf_eq, Finset.mem_coe, List.mem_toFinset]
      constructor
      · rintro ⟨arguments, value, hv⟩
        by_contra hn
        rw [respond_unrecognized ⟨name, arguments⟩ hn] at hv
        simp at hv
      · intro hn
        refine ⟨none, EncodableValue.null, ?_⟩
        rw [respond_recognized ⟨name, none⟩ hn]
        simp
    rw [hset, Set.ncard_coe_Finset]
    decide

/-- C6: every invocation of `HandleMethodCall` delivers exactly one response on
the result object before it returns: what was delivered before is kept, one
response is added, and that response is either `Success` (and then no
`NotImplemented`) or `NotImplemented` (and then no `Success`). -/
theorem HandleMethodCall_exactly_one_response (self : InAppPurchaseTizenPlugin)
    (method_call : MethodCall EncodableValue) (result : MethodResult EncodableValue) :
    (self.HandleMethodCall method_call result).2.responses =
        result.responses ++ respond method_call ∧
    (self.HandleMethodCall method_call result).2.responses.length =
        result.responses.length + 1 ∧
    (respond method_call).length = 1 ∧
    ((respond method_call = [Response.Success EncodableValue.null] ∧
        Response.NotImplemented ∉ respond method_call) ∨
      (respond method_call = [Response.NotImplemented] ∧
        ∀ value : EncodableValue, Response.Success value ∉ respond method_call)) := by
  have hlen : (respond method_call).length = 1 := by
    by_cases h : method_call.method_name ∈ recognizedNames
    · rw [respond_recognized _ h]; rfl
    · rw [respond_unrecognized _ h]; rfl
  refine ⟨HandleMethodCall_responses _ _ _, ?_, hlen, ?_⟩
  · rw [HandleMethodCall_responses, List.length_append, hlen]
  · by_cases h : method_call.method_name ∈ recognizedNames
    · left
      rw [respond_recognized _ h]
      simp
    · right
      rw [respond_unrecognized _ h]
      simp

/-- C7: registration through `InAppPurchaseTizenPluginRegisterWithRegistrar`
installs exactly one method-call handler on the registrar of the given handle,
under the channel name "plugins.flutter.tizen.io/in_app_purchase", adds exactly
one plugin to that registrar, leaves every other registrar as it was, and the
installed handler (the one that now answers the channel) responds to every
call as `HandleMethodCall` does. -/
theorem RegisterWithRegistrar_installs_handler (manager : PluginRegistrarManager)
    (registrar : FlutterDesktopPluginRegistrarRef) :
    ∃ handler : MethodCallHandler EncodableValue,
      ((InAppPurchaseTizenPluginRegisterWithRegistrar manager registrar).GetRegistrar
          registrar).messenger.handlers =
        ("plugins.flutter.tizen.io/in_app_purchase", handler) ::
          (manager.GetRegistrar registrar).messenger.handlers ∧
      ((InAppPurchaseTizenPluginRegisterWithRegistrar manager registrar).GetRegistrar
          registrar).messenger.handlerFor "plugins.flutter.tizen.io/in_app_purchase" =
        some handler ∧
      ((InAppPurchaseTizenPluginRegisterWithRegistrar manager registrar).GetRegistrar
          registrar).plugins =
        (manager.GetRegistrar registrar).plugins ++
          [Plugin.inAppPurchaseTizen InAppPurchaseTizenPlugin.mk] ∧
      (∀ (method_call : MethodCall EncodableValue) (result : MethodResult EncodableValue),
        handler method_call result =
          (InAppPurchaseTizenPlugin.mk.HandleMethodCall method_call result).2) ∧
      (∀ other : FlutterDesktopPluginRegistrarRef, other ≠ registrar →
        (InAppPurchaseTizenPluginRegisterWithRegistrar manager registrar).GetRegistrar other =
          manager.GetRegistrar other) := by
  refine ⟨fun call result => (InAppPurchaseTizenPlugin.mk.HandleMethodCall call result).2,
    ?_, ?_, ?_, fun _ _ => rfl, ?_⟩
  · simp [InAppPurchaseTizenPluginRegisterWithRegistrar, PluginRegistrarManager.GetRegistrar,
      InAppPurchaseTizenPlugin.RegisterWithRegistrar, PluginRegistrar.AddPlugin,
      MethodChannel.SetMethodCallHandler]
  · simp [InAppPurchaseTizenPluginRegisterWithRegistrar, PluginRegistrarManager.GetRegistrar,
      InAppPurchaseTizenPlugin.RegisterWithRegistrar, PluginRegistrar.AddPlugin,
      MethodChannel.SetMethodCallHandler, BinaryMessenger.handlerFor]
  · simp [InAppPurchaseTizenPluginRegisterWithRegistrar, PluginRegistrarManager.GetRegistrar,
      InAppPurchaseTizenPlugin.RegisterWithRegistrar, PluginRegistrar.AddPlugin]
  · intro other hother
    simp [InAppPurchaseTizenPluginRegisterWithRegistrar, PluginRegistrarManager.GetRegistrar,
      hother]

/-- C8: the handler is stateless.  `HandleMethodCall` is run in a program state
that holds everything it could keep between calls (the file-scope variable and
the plugin object).  When a finite sequence of calls is dispatched to one
plugin object from any such state, the response to each call is the response
`HandleMethodCall` gives to that call in isolation, whatever the number, order
and content of the calls before it and whatever the state at the start, and
the state at the end is the state at the start.  The response in isolation is
the one the other theorems describe (`respond`). -/
theorem dispatchAll_stateless (state : Program.State)
    (calls : List (MethodCall EncodableValue)) :
    (Program.dispatchAll state calls).2 = calls.map Program.respondAlone ∧
    (Program.dispatchAll state calls).1 = state ∧
    (∀ (earlier : List (MethodCall EncodableValue)) (method_call : MethodCall EncodableValue),
      (Program.dispatchAll state (earlier ++ [method_call])).2 =
        (Program.dispatchAll state earlier).2 ++ [Program.respondAlone method_call]) ∧
    (∀ i : Nat, (Program.dispatchAll state calls).2.get? i =
      (calls.get? i).map Program.respondAlone) ∧
    (∀ (method_call : MethodCall EncodableValue) (result : MethodResult EncodableValue),
      (Program.HandleMethodCall state method_call result).1 = state ∧
      (Program.HandleMethodCall state method_call result).2.responses =
        result.responses ++ Program.respondAlone method_call) ∧
    (∀ method_call : MethodCall EncodableValue,
      Program.respondAlone method_call = respond method_call) := by
  refine ⟨?_, ?_, ?_, ?_, ?_, Program.respondAlone_eq⟩
  · rw [Program.dispatchAll_eq]
  · rw [Program.dispatchAll_eq]
  · intro earlier method_call
    rw [Program.dispatchAll_eq, Program.dispatchAll_eq, List.map_append]
    rfl
  · intro i
    rw [Program.dispatchAll_eq]
    simp [List.get?_eq_getElem?, List.getElem?_map]
  · intro method_call result
    rw [Program.HandleMethodCall_eq, Program.respondAlone_eq]
    exact ⟨rfl, HandleMethodCall_responses _ _ _⟩

/-- C9: method-name matching is exact, case-sensitive, whole-string equality:
a name that is not a recognized name but equals one up to letter case, or has
one as a proper prefix or suffix, is answered with `NotImplemented`, while the
recognized name it resembles is answered with `Success`. -/
theorem HandleMethodCall_exact_match (self : InAppPurchaseTizenPlugin)
    (method_call : MethodCall EncodableValue) (result : MethodResult EncodableValue)
    (known : String) (hknown : known ∈ recognizedNames)
    (hne : method_call.method_name ≠ known)
    (hnear : foldCase method_call.method_name = foldCase known ∨
      known.data <+: method_call.method_name.data ∨
      known.data <:+ method_call.method_name.data) :
    (self.HandleMethodCall method_call result).2.responses =
        result.responses ++ [Response.NotImplemented] ∧
    respond method_call = [Response.NotImplemented] ∧
    respond ⟨known, method_call.arguments⟩ = [Response.Success EncodableValue.null] := by
  have hnot : method_call.method_name ∉ recognizedNames := by
    intro hmem
    rcases hnear with h | h | h
    · exact hne (recognizedNames_foldCase_injective _ hmem _ hknown h)
    · exact hne (recognizedNames_prefix_free _ hknown _ hmem h).symm
    · exact hne (recognizedNames_suffix_free _ hknown _ hmem h).symm
  refine ⟨?_, respond_unrecognized _ hnot, respond_recognized ⟨known, _⟩ hknown⟩
  rw [HandleMethodCall_unrecognized _ _ _ hnot]
  rfl

/-- Witness of C9 at the names "getCustomId", "getCountryCode", "GetProductList",
"isavailable" (letter case), "buyItem " (prefix) and "xbuyItem" (suffix). -/
theorem HandleMethodCall_exact_match_witness :
    (respond ⟨"getCustomId", none⟩ = [Response.NotImplemented] ∧
      respond ⟨"GetCustomId", none⟩ = [Response.Success EncodableValue.null]) ∧
    (respond ⟨"getCountryCode", none⟩ = [Response.NotImplemented] ∧
      respond ⟨"GetCountryCode", none⟩ = [Response.Success EncodableValue.null]) ∧
    (respond ⟨"GetProductList", none⟩ = [Response.NotImplemented] ∧
      respond ⟨"getProductList", none⟩ = [Response.Success EncodableValue.null]) ∧
    (respond ⟨"isavailable", none⟩ = [Response.NotImplemented] ∧
      respond ⟨"isAvailable", none⟩ = [Response.Success EncodableValue.null]) ∧
    (respond ⟨"buyItem ", none⟩ = [Response.NotImplemented] ∧
      respond ⟨"buyItem", none⟩ = [Response.Success EncodableValue.null]) ∧
    (respond ⟨"xbuyItem", none⟩ = [Response.NotImplemented] ∧
      respond ⟨"buyItem", none⟩ = [Response.Success EncodableValue.null]) :=
  ⟨(HandleMethodCall_exact_match InAppPurchaseTizenPlugin.mk ⟨"getCustomId", none⟩
      MethodResult.fresh "GetCustomId" (by decide) (by decide) (Or.inl (by decide))).2,
    (HandleMethodCall_exact_match InAppPurchaseTizenPlugin.mk ⟨"getCountryCode", none⟩
      MethodResult.fresh "GetCountryCode" (by decide) (by decide) (Or.inl (by decide))).2,
    (HandleMethodCall_exact_match InAppPurchaseTizenPlugin.mk ⟨"GetProductList", none⟩
      MethodResult.fresh "getProductList" (by decide) (by decide) (Or.inl (by decide))).2,
    (HandleMethodCall_exact_match InAppPurchaseTizenPlugin.mk ⟨"isavailable", none⟩
      MethodResult.fresh "isAvailable" (by decide) (by decide) (Or.inl (by decide))).2,
    (HandleMethodCall_exact_match InAppPurchaseTizenPlugin.mk ⟨"buyItem ", none⟩
      MethodResult.fresh "buyItem" (by decide) (by decide) (Or.inr (Or.inl (by decide)))).2,
    (HandleMethodCall_exact_match InAppPurchaseTizenPlugin.mk ⟨"xbuyItem", none⟩
      MethodResult.fresh "buyItem" (by decide) (by decide) (Or.inr (Or.inr (by decide)))).2⟩

end InAppPurchaseTizen
